import Mathlib

/-!
# Shallow embedding of the `Any` type-erasing container

The repository provides two C++ implementations of a type-erasing value
container:

* `Any::Polymorphic::Any` (src/include/Polymorphic/AnyPolymorphic.hpp) —
  dispatch-based: the container owns a `std::unique_ptr<AnyBase>` where the
  concrete `AnyTyped<T>` record holds the value;
* `Any::Procedural::Any` (src/include/Procedural/AnyProcedural.hpp) —
  table-based: the container owns a raw `Vtable*` pointing to a
  `VtableTyped<T>` record holding the value, with a per-type function table.

Both are embedded over a common explicit heap of erasure records.  A record
is a pair of a per-type token (`typeid` modelled as a `Nat`) and the stored
concrete value (modelled as a `Nat`).  Addresses are `Nat`s, freshly
allocated and never reused.  Every operation additionally returns the list
of lifetime events (record construction, clone call, record destruction)
that it performs, so that ordering and frame properties ("swap never
invokes clone, copy or destroy", "Emplace constructs the new record before
destroying the old one") can be stated.

`typeid(void)` — the sentinel identity reported by `Type()` on an empty
container — is modelled as token `0` (`voidToken`).  Concrete stored types
may carry any token; the embedding nowhere needs them to differ from `0`.
-/

namespace AnyModel

/-- One erasure record: the per-type `typeid` token and the stored concrete
value.  (`AnyTyped<ValueType>` resp. `VtableTyped<ValueType>` in the C++.) -/
structure Record where
  ty : Nat
  data : Nat
deriving Repr, DecidableEq

/-- Lifetime events performed by container operations:
`alloc addr ty` — a record of type `ty` is constructed at address `addr`
(`new` / `std::make_unique`); `cloneCall addr` — `Clone()` is invoked on the
record at `addr`; `destroy addr ty` — the record at `addr` is destroyed
(value teardown plus deallocation). -/
inductive Event where
  | alloc (addr ty : Nat)
  | cloneCall (addr : Nat)
  | destroy (addr ty : Nat)
deriving Repr, DecidableEq

/-- Failure conditions surfaced by the embedding: `badCast` models throwing
`Any::BadCast`; `ctorFail` models an exception escaping the constructor of
the value being emplaced (any other exception type, propagated unchanged). -/
inductive Err where
  | badCast
  | ctorFail
deriving Repr, DecidableEq

/-- The heap of live erasure records: an association list from addresses to
records, plus the next never-used address.  Freed addresses are not
reused. -/
structure Heap where
  mem : List (Nat × Record)
  next : Nat
deriving Repr, DecidableEq

/-- Find the record stored under address `addr` in an association list. -/
def lookupA (addr : Nat) : List (Nat × Record) → Option Record
  | [] => none
  | p :: l => if p.1 = addr then some p.2 else lookupA addr l

/-- Remove the entry stored under address `addr` from an association list. -/
def eraseA (addr : Nat) : List (Nat × Record) → List (Nat × Record)
  | [] => []
  | p :: l => if p.1 = addr then eraseA addr l else p :: eraseA addr l

/-- Overwrite the value stored under address `addr` in an association
list, keeping its type token. -/
def writeA (addr d : Nat) : List (Nat × Record) → List (Nat × Record)
  | [] => []
  | p :: l =>
    if p.1 = addr then (p.1, ⟨p.2.ty, d⟩) :: writeA addr d l
    else p :: writeA addr d l

namespace Heap

/-- Dereference: the record at `addr`, if live. -/
def lookup (h : Heap) (addr : Nat) : Option Record :=
  lookupA addr h.mem

/-- Allocate a fresh record (models `new VtableTyped<T>(...)` /
`std::make_unique<AnyTyped<T>>(...)`). -/
def alloc (h : Heap) (r : Record) : Nat × Heap :=
  (h.next, ⟨(h.next, r) :: h.mem, h.next + 1⟩)

/-- Deallocate the record at `addr` (models `delete` / `unique_ptr` reset). -/
def free (h : Heap) (addr : Nat) : Heap :=
  ⟨eraseA addr h.mem, h.next⟩

/-- The `typeid` token of the record at `addr` (`GetTypeInfo()` through the
record pointer; the default is never reached on a live address). -/
def tyAt (h : Heap) (addr : Nat) : Nat :=
  ((h.lookup addr).getD ⟨0, 0⟩).ty

/-- The stored value of the record at `addr` (`GetValue()` through the
record pointer; the default is never reached on a live address). -/
def dataAt (h : Heap) (addr : Nat) : Nat :=
  ((h.lookup addr).getD ⟨0, 0⟩).data

/-- Overwrite the stored value at `addr` in place.  This models a caller
mutating the stored value through the `ValueType&` reference returned by
`AnyCast` (which returns `value_` by reference, not a copy). -/
def write (h : Heap) (addr : Nat) (d : Nat) : Heap :=
  ⟨writeA addr d h.mem, h.next⟩

end Heap

/-- The token reported for `typeid(void)`, i.e. `Type()` of an empty
container. -/
def voidToken : Nat := 0

/-! ## The dispatch-based variant — `Any::Polymorphic::Any` -/

namespace Polymorphic

/-- Source: `Any::Polymorphic::Any`: the container is a single ownership slot
`base_ : std::unique_ptr<AnyBase>`; `none` models the null pointer. -/
structure Any where
  base_ : Option Nat
deriving Repr, DecidableEq

/-- Source: `Any() = default;` — the default-constructed, empty container. -/
def Any.mkDefault : Any := ⟨none⟩

/-- Source: `bool HasValue() const { return base_ != nullptr; }` -/
def Any.hasValue (a : Any) : Bool := a.base_.isSome

/-- Source: `const std::type_info& Type() const` — `typeid(void)` when empty, else
`base_->GetTypeInfo()`. -/
def Any.type' (a : Any) (h : Heap) : Nat :=
  if ¬ a.hasValue then voidToken
  else h.tyAt (a.base_.getD 0)

/-- Source: `AnyCastImpl<ValueType>()` — throws `BadCast` when the container is
empty or `typeid(ValueType) != Type()`; otherwise returns (the value behind)
the `ValueType&` reference `static_cast<AnyTyped<ValueType>*>(base_.get())->GetValue()`. -/
def Any.anyCast (a : Any) (reqTy : Nat) (h : Heap) : Except Err Nat :=
  if ¬ a.hasValue ∨ reqTy ≠ a.type' h then .error .badCast
  else .ok (h.dataAt (a.base_.getD 0))

/-- The value constructor
`Any(ValueType&& value) : base_(MakeAnyBasePtr<AnyTyped<decay_t<ValueType>>>(...))`
(constrained to `decay_t<ValueType>` not being `Any` itself): allocates a
fresh `AnyTyped` record holding the value. -/
def ctor (v : Record) (h : Heap) : Any × Heap × List Event :=
  let p := h.alloc v
  (⟨some p.1⟩, p.2, [Event.alloc p.1 v.ty])

/-- Source: `AnyBasePtr CloneBase() const` — null when empty, else `base_->Clone()`,
where `AnyTyped<T>::Clone()` makes a fresh `AnyTyped<T>` holding a copy of
`value_`.  (The dangling-pointer arm is unreachable from any state the
container can produce.) -/
def cloneBase (a : Any) (h : Heap) : Option Nat × Heap × List Event :=
  match a.base_ with
  | none => (none, h, [])
  | some addr =>
    match h.lookup addr with
    | none => (none, h, [])
    | some r =>
      let p := h.alloc r
      (some p.1, p.2, [Event.cloneCall addr, Event.alloc p.1 r.ty])

/-- Source: `Any(const Any& other) : base_(other.CloneBase()) {}` -/
def copyCtor (a : Any) (h : Heap) : Any × Heap × List Event :=
  let p := cloneBase a h
  (⟨p.1⟩, p.2.1, p.2.2)

/-- Source: `Any(Any&& other) noexcept : base_(std::move(other.base_)) {}` — returns
the new container and the moved-from `other` (whose `unique_ptr` is now
null).  No record is touched: the heap is unchanged and no event occurs. -/
def moveCtor (a : Any) (h : Heap) : Any × Any × Heap × List Event :=
  (⟨a.base_⟩, ⟨none⟩, h, [])

/-- Destruction of the owned record, as performed by `~Any()` /
`unique_ptr` assignment / `Reset()`: a no-op when the slot is null, else the
record's (virtual) destructor runs and its storage is freed. -/
def destruct (a : Any) (h : Heap) : Heap × List Event :=
  match a.base_ with
  | none => (h, [])
  | some addr =>
    match h.lookup addr with
    | none => (h, [])
    | some r => (h.free addr, [Event.destroy addr r.ty])

/-- Source: `void Reset() noexcept { base_.reset(); }` -/
def reset (a : Any) (h : Heap) : Any × Heap × List Event :=
  let p := destruct a h
  (⟨none⟩, p.1, p.2)

/-- Source: `void Swap(Any& other) noexcept { std::swap(base_, other.base_); }` —
the two ownership slots are exchanged; nothing else happens. -/
def swap (a b : Any) (h : Heap) : Any × Any × Heap × List Event :=
  (⟨b.base_⟩, ⟨a.base_⟩, h, [])

/-- Source: `Emplace<ValueType>(args...)`:
`base_ = MakeAnyBasePtr<AnyTyped<decay_t<ValueType>>>(forward<Args>(args)...);
return AnyCast<decay_t<ValueType>>();`
The argument `mv` is the outcome of constructing the new value from `args`:
`none` models the constructor throwing, in which case the exception
propagates before the `unique_ptr` assignment, so nothing is mutated and
nothing is destroyed.  When construction succeeds, the right-hand side is
fully constructed first, then the `unique_ptr` assignment destroys the old
record, and the freshly stored value is returned through `AnyCast`. -/
def emplace (mv : Option Record) (a : Any) (h : Heap) :
    Except Err Nat × Any × Heap × List Event :=
  match mv with
  | none => (.error .ctorFail, a, h, [])
  | some v =>
    let p := h.alloc v
    let q := destruct a p.2
    let a' : Any := ⟨some p.1⟩
    (a'.anyCast v.ty q.1, a', q.1, Event.alloc p.1 v.ty :: q.2)

/-- Source: `Any& operator=(const Any& other)` — the `same` flag is the outcome of
the `this == std::addressof(other)` identity check; when it holds the
assignment returns immediately.  Otherwise: `Any temp(other);
this->Swap(temp);` and `temp` (now owning the old record) is destroyed at
scope exit.  Returns (new `this`, `other` unchanged, heap, events). -/
def copyAssign (same : Bool) (self other : Any) (h : Heap) :
    Any × Any × Heap × List Event :=
  if same then (self, other, h, [])
  else
    let t := copyCtor other h
    let s := swap self t.1 t.2.1
    let d := destruct s.2.1 s.2.2.1
    (s.1, other, d.1, t.2.2 ++ s.2.2.2 ++ d.2)

/-- Source: `Any& operator=(Any&& other) noexcept` — the `same` flag is the outcome
of the `this == std::addressof(other)` identity check; when it holds the
assignment returns immediately.  Otherwise: `Any temp(std::move(other));
this->Swap(temp);` and `temp` (now owning the old record) is destroyed at
scope exit.  Returns (new `this`, moved-from `other`, heap, events). -/
def moveAssign (same : Bool) (self other : Any) (h : Heap) :
    Any × Any × Heap × List Event :=
  if same then (self, other, h, [])
  else
    let t := moveCtor other h
    let s := swap self t.1 t.2.2.1
    let d := destruct s.2.1 s.2.2.1
    (s.1, t.2.1, d.1, t.2.2.2 ++ s.2.2.2 ++ d.2)

end Polymorphic

/-! ## The table-based variant — `Any::Procedural::Any` -/

namespace Procedural

/-- Source: `Any::Procedural::Any`: the container is a single raw owning pointer
`vtable_ : Vtable*`; `none` models the null pointer.  The per-type function
table of `VtableTyped<T>` (clone, typeid, destroy) is what the heap record
dispatches to in `cloneVtable` / `tyAt` / `destroyVtable` below. -/
structure Any where
  vtable_ : Option Nat
deriving Repr, DecidableEq

/-- Source: `Any() = default;` with `Vtable* vtable_{};` — the default-constructed,
empty container. -/
def Any.mkDefault : Any := ⟨none⟩

/-- Source: `bool HasValue() const { return vtable_ != nullptr; }` -/
def Any.hasValue (a : Any) : Bool := a.vtable_.isSome

/-- Source: `const std::type_info& Type() const` — `typeid(void)` when empty, else
`vtable_->GetTypeInfo()` (dispatching through the type's function table). -/
def Any.type' (a : Any) (h : Heap) : Nat :=
  if ¬ a.hasValue then voidToken
  else h.tyAt (a.vtable_.getD 0)

/-- Source: `AnyCastImpl<ValueType>()` — throws `BadCast` when
`vtable_ == nullptr or vtable_->GetTypeInfo() != typeid(ValueType)`;
otherwise returns (the value behind) the reference
`static_cast<VtableTyped<ValueType>*>(vtable_)->GetValue()`. -/
def Any.anyCast (a : Any) (reqTy : Nat) (h : Heap) : Except Err Nat :=
  match a.vtable_ with
  | none => .error .badCast
  | some addr =>
    if h.tyAt addr ≠ reqTy then .error .badCast
    else .ok (h.dataAt addr)

/-- The value constructor
`Any(ValueType&& value) : vtable_(new VtableTyped<decay_t<ValueType>>(...))`
(constrained to `decay_t<ValueType>` not being `Any` itself): allocates a
fresh `VtableTyped` record holding the value. -/
def ctor (v : Record) (h : Heap) : Any × Heap × List Event :=
  let p := h.alloc v
  (⟨some p.1⟩, p.2, [Event.alloc p.1 v.ty])

/-- Source: `Vtable* CloneVtable() const` — null when empty, else
`vtable_->Clone()`, which dispatches to `CloneFuncImpl`:
`new VtableTyped<ValueType>{static_cast<const VtableTyped<ValueType>*>(self)->GetValue()}`.
(The dangling-pointer arm is unreachable from any state the container can
produce.) -/
def cloneVtable (a : Any) (h : Heap) : Option Nat × Heap × List Event :=
  match a.vtable_ with
  | none => (none, h, [])
  | some addr =>
    match h.lookup addr with
    | none => (none, h, [])
    | some r =>
      let p := h.alloc r
      (some p.1, p.2, [Event.cloneCall addr, Event.alloc p.1 r.ty])

/-- Source: `Any(const Any& other) : vtable_(other.CloneVtable()) {}` -/
def copyCtor (a : Any) (h : Heap) : Any × Heap × List Event :=
  let p := cloneVtable a h
  (⟨p.1⟩, p.2.1, p.2.2)

/-- Source: `Any(Any&& other) noexcept : vtable_(other.vtable_) { other.vtable_ = nullptr; }`
— returns the new container and the moved-from `other`.  No record is
touched: the heap is unchanged and no event occurs. -/
def moveCtor (a : Any) (h : Heap) : Any × Any × Heap × List Event :=
  (⟨a.vtable_⟩, ⟨none⟩, h, [])

/-- Source: `static void DestroyVtable(Vtable* vtable) noexcept` — a no-op on a
null pointer, else `vtable->Destroy()` dispatches to `DestroyFuncImpl`,
which `delete`s the typed record (value teardown plus deallocation). -/
def destroyVtable (p : Option Nat) (h : Heap) : Heap × List Event :=
  match p with
  | none => (h, [])
  | some addr =>
    match h.lookup addr with
    | none => (h, [])
    | some r => (h.free addr, [Event.destroy addr r.ty])

/-- Source: `void Reset() noexcept { DestroyVtable(vtable_); NullifyVtable(); }` -/
def reset (a : Any) (h : Heap) : Any × Heap × List Event :=
  let p := destroyVtable a.vtable_ h
  (⟨none⟩, p.1, p.2)

/-- Source: `void Swap(Any& other) noexcept { std::swap(vtable_, other.vtable_); }`
— the two ownership slots are exchanged; nothing else happens. -/
def swap (a b : Any) (h : Heap) : Any × Any × Heap × List Event :=
  (⟨b.vtable_⟩, ⟨a.vtable_⟩, h, [])

/-- Source: `Emplace<ValueType>(args...)`:
`Vtable* safe_copy = vtable_;
vtable_ = new VtableTyped<decay_t<ValueType>>(forward<Args>(args)...);
DestroyVtable(safe_copy);
return AnyCast<decay_t<ValueType>>();`
The argument `mv` is the outcome of constructing the new value from `args`:
`none` models the constructor throwing, in which case the exception
propagates before `vtable_` is reassigned, so nothing is mutated and
`DestroyVtable(safe_copy)` never runs.  When construction succeeds, the new
record is fully constructed first, then the saved old pointer is destroyed,
and the freshly stored value is returned through `AnyCast`. -/
def emplace (mv : Option Record) (a : Any) (h : Heap) :
    Except Err Nat × Any × Heap × List Event :=
  match mv with
  | none => (.error .ctorFail, a, h, [])
  | some v =>
    let safeCopy := a.vtable_
    let p := h.alloc v
    let q := destroyVtable safeCopy p.2
    let a' : Any := ⟨some p.1⟩
    (a'.anyCast v.ty q.1, a', q.1, Event.alloc p.1 v.ty :: q.2)

/-- Source: `Any& operator=(const Any& other)` — the `same` flag is the outcome of
the `this == std::addressof(other)` identity check; when it holds the
assignment returns immediately.  Otherwise: `Any temp(other);
this->Swap(temp);` and `temp` (now owning the old record) is destroyed at
scope exit by `~Any() { DestroyVtable(vtable_); }`. -/
def copyAssign (same : Bool) (self other : Any) (h : Heap) :
    Any × Any × Heap × List Event :=
  if same then (self, other, h, [])
  else
    let t := copyCtor other h
    let s := swap self t.1 t.2.1
    let d := destroyVtable s.2.1.vtable_ s.2.2.1
    (s.1, other, d.1, t.2.2 ++ s.2.2.2 ++ d.2)

/-- Source: `Any& operator=(Any&& other) noexcept` — the `same` flag is the outcome
of the `this == std::addressof(other)` identity check; when it holds the
assignment returns immediately.  Otherwise: `Any temp(std::move(other));
this->Swap(temp);` and `temp` (now owning the old record) is destroyed at
scope exit. -/
def moveAssign (same : Bool) (self other : Any) (h : Heap) :
    Any × Any × Heap × List Event :=
  if same then (self, other, h, [])
  else
    let t := moveCtor other h
    let s := swap self t.1 t.2.2.1
    let d := destroyVtable s.2.1.vtable_ s.2.2.1
    (s.1, t.2.1, d.1, t.2.2.2 ++ s.2.2.2 ++ d.2)

end Procedural

/-! ## Caller-side mutation through `AnyCast`

`AnyCast<T>()` returns `ValueType&`, a direct reference to the stored
`value_`; a caller may assign through it.  `writeVia a h w` is the heap
after the caller writes `w` through the reference obtained from container
`a` (a no-op only in the unreachable empty case, where `AnyCast` throws
instead of returning a reference). -/

def Polymorphic.writeVia (a : Polymorphic.Any) (h : Heap) (w : Nat) : Heap :=
  match a.base_ with
  | none => h
  | some addr => h.write addr w

def Procedural.writeVia (a : Procedural.Any) (h : Heap) (w : Nat) : Heap :=
  match a.vtable_ with
  | none => h
  | some addr => h.write addr w

/-! ## Sequences of public operations

A common small language of public-interface operations, interpreted by both
variants over a list of containers plus the heap.  Indices address
containers created so far; `newFrom`/`newCopy`/`newMove`/`newDefault`
append a new container.  `assignCopy i i` / `assignMove i i` are
self-assignment: the C++ `this == std::addressof(other)` check corresponds
exactly to index equality, since distinct list slots are distinct
objects. -/

inductive Op where
  | newDefault
  | newFrom (v : Record)
  | newCopy (i : Nat)
  | newMove (i : Nat)
  | assignCopy (i j : Nat)
  | assignMove (i j : Nat)
  | doEmplace (i : Nat) (mv : Option Record)
  | doReset (i : Nat)
  | doSwap (i j : Nat)
deriving Repr, DecidableEq

namespace Polymorphic

/-- Interpreter state for the dispatch-based variant: the containers
created so far and the heap of live records. -/
structure World where
  conts : List Any
  heap : Heap
deriving Repr, DecidableEq

/-- The container at index `i` (an empty container when out of range;
out-of-range writes are dropped by `List.set`, so such indices behave as a
scratch empty container in both variants alike). -/
def World.getC (w : World) (i : Nat) : Any := w.conts.getD i ⟨none⟩

/-- One public operation, interpreted with the dispatch-based variant. -/
def step (w : World) : Op → World
  | .newDefault => ⟨w.conts ++ [Any.mkDefault], w.heap⟩
  | .newFrom v =>
    let p := ctor v w.heap
    ⟨w.conts ++ [p.1], p.2.1⟩
  | .newCopy i =>
    let p := copyCtor (w.getC i) w.heap
    ⟨w.conts ++ [p.1], p.2.1⟩
  | .newMove i =>
    let p := moveCtor (w.getC i) w.heap
    ⟨(w.conts.set i p.2.1) ++ [p.1], p.2.2.1⟩
  | .assignCopy i j =>
    let p := copyAssign (i == j) (w.getC i) (w.getC j) w.heap
    ⟨(w.conts.set i p.1).set j p.2.1, p.2.2.1⟩
  | .assignMove i j =>
    let p := moveAssign (i == j) (w.getC i) (w.getC j) w.heap
    ⟨(w.conts.set i p.1).set j p.2.1, p.2.2.1⟩
  | .doEmplace i mv =>
    let p := emplace mv (w.getC i) w.heap
    ⟨w.conts.set i p.2.1, p.2.2.1⟩
  | .doReset i =>
    let p := reset (w.getC i) w.heap
    ⟨w.conts.set i p.1, p.2.1⟩
  | .doSwap i j =>
    let p := swap (w.getC i) (w.getC j) w.heap
    ⟨(w.conts.set i p.1).set j p.2.1, p.2.2.1⟩

/-- Run a sequence of public operations from a given state. -/
def run (ops : List Op) (w : World) : World := ops.foldl step w

/-- The empty initial state: no containers, empty heap. -/
def World.init : World := ⟨[], ⟨[], 0⟩⟩

/-- The observable state of every container: `HasValue()`, `Type()`, and
the outcome of `AnyCast<reqTy>()`. -/
def observe (w : World) (reqTy : Nat) : List (Bool × Nat × Except Err Nat) :=
  w.conts.map (fun a => (a.hasValue, a.type' w.heap, a.anyCast reqTy w.heap))

end Polymorphic

namespace Procedural

/-- Interpreter state for the table-based variant. -/
structure World where
  conts : List Any
  heap : Heap
deriving Repr, DecidableEq

/-- The container at index `i` (an empty container when out of range). -/
def World.getC (w : World) (i : Nat) : Any := w.conts.getD i ⟨none⟩

/-- One public operation, interpreted with the table-based variant. -/
def step (w : World) : Op → World
  | .newDefault => ⟨w.conts ++ [Any.mkDefault], w.heap⟩
  | .newFrom v =>
    let p := ctor v w.heap
    ⟨w.conts ++ [p.1], p.2.1⟩
  | .newCopy i =>
    let p := copyCtor (w.getC i) w.heap
    ⟨w.conts ++ [p.1], p.2.1⟩
  | .newMove i =>
    let p := moveCtor (w.getC i) w.heap
    ⟨(w.conts.set i p.2.1) ++ [p.1], p.2.2.1⟩
  | .assignCopy i j =>
    let p := copyAssign (i == j) (w.getC i) (w.getC j) w.heap
    ⟨(w.conts.set i p.1).set j p.2.1, p.2.2.1⟩
  | .assignMove i j =>
    let p := moveAssign (i == j) (w.getC i) (w.getC j) w.heap
    ⟨(w.conts.set i p.1).set j p.2.1, p.2.2.1⟩
  | .doEmplace i mv =>
    let p := emplace mv (w.getC i) w.heap
    ⟨w.conts.set i p.2.1, p.2.2.1⟩
  | .doReset i =>
    let p := reset (w.getC i) w.heap
    ⟨w.conts.set i p.1, p.2.1⟩
  | .doSwap i j =>
    let p := swap (w.getC i) (w.getC j) w.heap
    ⟨(w.conts.set i p.1).set j p.2.1, p.2.2.1⟩

/-- Run a sequence of public operations from a given state. -/
def run (ops : List Op) (w : World) : World := ops.foldl step w

/-- The empty initial state: no containers, empty heap. -/
def World.init : World := ⟨[], ⟨[], 0⟩⟩

/-- The observable state of every container: `HasValue()`, `Type()`, and
the outcome of `AnyCast<reqTy>()`. -/
def observe (w : World) (reqTy : Nat) : List (Bool × Nat × Except Err Nat) :=
  w.conts.map (fun a => (a.hasValue, a.type' w.heap, a.anyCast reqTy w.heap))

end Procedural

/-! ## Event bookkeeping used by the ordering claims -/

/-- The number of `destroy` events for address `addr` in a trace. -/
def countDestroy (tr : List Event) (addr : Nat) : Nat :=
  tr.countP (fun e => match e with
    | Event.destroy a _ => a == addr
    | _ => false)

/-- Index of the first `destroy` event for `addr`, if any. -/
def destroyIdx (tr : List Event) (addr : Nat) : Option Nat :=
  tr.findIdx? (fun e => match e with
    | Event.destroy a _ => a == addr
    | _ => false)

/-- Index of the first `alloc` event for `addr`, if any. -/
def allocIdx (tr : List Event) (addr : Nat) : Option Nat :=
  tr.findIdx? (fun e => match e with
    | Event.alloc a _ => a == addr
    | _ => false)

/-- Source: `destroyBeforeAlloc tr d a` holds when the trace `tr` destroys the
record at `d` strictly before it constructs the record at `a`. -/
def destroyBeforeAlloc (tr : List Event) (dAddr aAddr : Nat) : Bool :=
  match destroyIdx tr dAddr, allocIdx tr aAddr with
  | some i, some j => i < j
  | _, _ => false

/-! ## Relating the two variants

The two containers are the same single ownership slot under different
mechanisms; `toC` maps a dispatch-variant container to the table-variant
container holding the same slot, and `toW` maps whole interpreter
states. -/

/-- The slot-preserving map from the dispatch-based container to the
table-based one. -/
def toC (a : Polymorphic.Any) : Procedural.Any := ⟨a.base_⟩

/-- The slot-preserving map on interpreter states. -/
def toW (w : Polymorphic.World) : Procedural.World := ⟨w.conts.map toC, w.heap⟩

/-- A container slot is valid for heap `h` when any address it holds was
allocated before `h.next` (every pointer the C++ container can hold came
from a past `new`, so it is below the allocation frontier). -/
def Polymorphic.Any.validIn (a : Polymorphic.Any) (h : Heap) : Prop :=
  ∀ addr, a.base_ = some addr → addr < h.next

/-- A container slot is valid for heap `h` when any address it holds was
allocated before `h.next`. -/
def Procedural.Any.validIn (a : Procedural.Any) (h : Heap) : Prop :=
  ∀ addr, a.vtable_ = some addr → addr < h.next

/-! ## Heap lemmas -/

theorem lookupA_eraseA_ne (addr addr2 : Nat) (hne : addr2 ≠ addr)
    (l : List (Nat × Record)) :
    lookupA addr2 (eraseA addr l) = lookupA addr2 l := by
  induction l with
  | nil => rfl
  | cons p l ih =>
    by_cases hpa : p.1 = addr
    · have hp2 : p.1 ≠ addr2 := by rw [hpa]; exact Ne.symm hne
      simp [eraseA, lookupA, hpa, hp2, hne, Ne.symm hne, ih]
    · by_cases hp2 : p.1 = addr2 <;> simp [eraseA, lookupA, hpa, hp2, hne, Ne.symm hne, ih]

theorem lookupA_writeA_ne (addr addr2 d : Nat) (hne : addr2 ≠ addr)
    (l : List (Nat × Record)) :
    lookupA addr2 (writeA addr d l) = lookupA addr2 l := by
  induction l with
  | nil => rfl
  | cons p l ih =>
    by_cases hpa : p.1 = addr
    · have hp2 : p.1 ≠ addr2 := by rw [hpa]; exact Ne.symm hne
      simp [writeA, lookupA, hpa, hp2, hne, Ne.symm hne, ih]
    · by_cases hp2 : p.1 = addr2 <;> simp [writeA, lookupA, hpa, hp2, hne, Ne.symm hne, ih]

theorem lookupA_writeA_self (addr d : Nat) (l : List (Nat × Record)) :
    lookupA addr (writeA addr d l)
      = (lookupA addr l).map (fun r => ⟨r.ty, d⟩) := by
  induction l with
  | nil => rfl
  | cons p l ih =>
    by_cases hpa : p.1 = addr
    · simp [writeA, lookupA, hpa]
    · simp [writeA, lookupA, hpa, ih]

namespace Heap

theorem lookup_alloc_self (h : Heap) (r : Record) :
    (h.alloc r).2.lookup h.next = some r := by
  simp [alloc, lookup, lookupA]

theorem lookup_alloc_ne (h : Heap) (r : Record) (addr : Nat) (hne : addr ≠ h.next) :
    (h.alloc r).2.lookup addr = h.lookup addr := by
  simp [alloc, lookup, lookupA, Ne.symm hne]

theorem lookup_free_ne (h : Heap) (addr addr2 : Nat) (hne : addr2 ≠ addr) :
    (h.free addr).lookup addr2 = h.lookup addr2 := by
  simp [free, lookup, lookupA_eraseA_ne _ _ hne]

theorem lookup_write_ne (h : Heap) (addr addr2 d : Nat) (hne : addr2 ≠ addr) :
    (h.write addr d).lookup addr2 = h.lookup addr2 := by
  simp [write, lookup, lookupA_writeA_ne _ _ _ hne]

theorem lookup_write_self (h : Heap) (addr d : Nat) (r : Record)
    (hl : h.lookup addr = some r) :
    (h.write addr d).lookup addr = some ⟨r.ty, d⟩ := by
  simp only [write, lookup, lookupA_writeA_self]
  simp only [lookup] at hl
  rw [hl]
  rfl

end Heap

/-! ## Emplace lemmas shared by several claims -/

theorem destruct_lookup_ne (a : Polymorphic.Any) (h : Heap) (addr2 : Nat)
    (hne : ∀ addr, a.base_ = some addr → addr ≠ addr2) :
    (Polymorphic.destruct a h).1.lookup addr2 = h.lookup addr2 := by
  cases ha : a.base_ with
  | none => simp [Polymorphic.destruct, ha]
  | some addr =>
    cases hl : h.lookup addr with
    | none => simp [Polymorphic.destruct, ha, hl]
    | some r =>
      simp [Polymorphic.destruct, ha, hl,
        Heap.lookup_free_ne _ _ _ (Ne.symm (hne addr ha))]

theorem destroyVtable_lookup_ne (p : Option Nat) (h : Heap) (addr2 : Nat)
    (hne : ∀ addr, p = some addr → addr ≠ addr2) :
    (Procedural.destroyVtable p h).1.lookup addr2 = h.lookup addr2 := by
  cases hp : p with
  | none => simp [Procedural.destroyVtable]
  | some addr =>
    cases hl : h.lookup addr with
    | none => simp [Procedural.destroyVtable, hl]
    | some r =>
      simp [Procedural.destroyVtable, hl,
        Heap.lookup_free_ne _ _ _ (Ne.symm (hne addr hp))]

/-- A successful `Emplace` always returns the freshly stored value: the
internal `AnyCast<decay_t<ValueType>>()` call cannot throw, because the
slot now holds a record of exactly the requested type. -/
theorem emplace_ok_poly (a : Polymorphic.Any) (h : Heap) (v : Record)
    (hv : a.validIn h) :
    (Polymorphic.emplace (some v) a h).1 = .ok v.data := by
  have h1 : (Polymorphic.destruct a (h.alloc v).2).1.lookup h.next = some v := by
    rw [destruct_lookup_ne]
    · exact Heap.lookup_alloc_self h v
    · intro addr ha
      exact Nat.ne_of_lt (hv addr ha)
  show (Polymorphic.Any.mk (some h.next)).anyCast v.ty
      (Polymorphic.destruct a (h.alloc v).2).1 = .ok v.data
  simp [Polymorphic.Any.anyCast, Polymorphic.Any.type', Polymorphic.Any.hasValue,
    Heap.tyAt, Heap.dataAt, h1]

/-- Table-variant analogue of `emplace_ok_poly`. -/
theorem emplace_ok_proc (b : Procedural.Any) (h : Heap) (v : Record)
    (hv : b.validIn h) :
    (Procedural.emplace (some v) b h).1 = .ok v.data := by
  have h1 : (Procedural.destroyVtable b.vtable_ (h.alloc v).2).1.lookup h.next = some v := by
    rw [destroyVtable_lookup_ne]
    · exact Heap.lookup_alloc_self h v
    · intro addr ha
      exact Nat.ne_of_lt (hv addr ha)
  show (Procedural.Any.mk (some h.next)).anyCast v.ty
      (Procedural.destroyVtable b.vtable_ (h.alloc v).2).1 = .ok v.data
  simp [Procedural.Any.anyCast, Heap.tyAt, Heap.dataAt, h1]

/-- In a trace whose very first event is the allocation of `aAddr`, no
destroy event can precede that allocation. -/
theorem dba_false_of_alloc_first (tr : List Event) (dAddr aAddr : Nat)
    (hhead : allocIdx tr aAddr = some 0) :
    destroyBeforeAlloc tr dAddr aAddr = false := by
  unfold destroyBeforeAlloc
  rw [hhead]
  cases destroyIdx tr dAddr with
  | none => rfl
  | some i => simp

theorem allocIdx_emplace_poly (a : Polymorphic.Any) (h : Heap) (v : Record) :
    allocIdx (Polymorphic.emplace (some v) a h).2.2.2 h.next = some 0 := by
  show allocIdx (Event.alloc h.next v.ty :: (Polymorphic.destruct a (h.alloc v).2).2)
      h.next = some 0
  simp [allocIdx, List.findIdx?_cons]

theorem allocIdx_emplace_proc (b : Procedural.Any) (h : Heap) (v : Record) :
    allocIdx (Procedural.emplace (some v) b h).2.2.2 h.next = some 0 := by
  show allocIdx
      (Event.alloc h.next v.ty :: (Procedural.destroyVtable b.vtable_ (h.alloc v).2).2)
      h.next = some 0
  simp [allocIdx, List.findIdx?_cons]

/-! ## The claims -/

/-- C3: for every value `v` of every non-Container type `T` (the value
constructor is constrained to `decay_t<ValueType> ≠ Any`), constructing a
container from `v` and then extracting with the matching type round-trips
the value: `Container(v).Extract<T>() == v`, in both variants. -/
theorem c3_construct_extract_roundtrip (v : Record) (h : Heap) :
    (Polymorphic.ctor v h).1.anyCast v.ty (Polymorphic.ctor v h).2.1 = .ok v.data
    ∧ (Procedural.ctor v h).1.anyCast v.ty (Procedural.ctor v h).2.1 = .ok v.data := by
  constructor
  · simp [Polymorphic.ctor, Polymorphic.Any.anyCast, Polymorphic.Any.type',
      Polymorphic.Any.hasValue, Heap.alloc, Heap.tyAt, Heap.dataAt, Heap.lookup, lookupA]
  · simp [Procedural.ctor, Procedural.Any.anyCast, Procedural.Any.hasValue,
      Heap.alloc, Heap.tyAt, Heap.dataAt, Heap.lookup, lookupA]

/-- C4: self-assignment by copy (`a = a`) and by move (`a = move(a)`) is a
no-op in both variants: the `this == std::addressof(other)` check (the
`true` argument) returns immediately, so the container, the heap and the
event trace are untouched, and every observable (`HasValue`, `Type`,
`AnyCast`) is unchanged. -/
theorem c4_self_assignment_noop (a : Polymorphic.Any) (b : Procedural.Any)
    (h : Heap) (r : Nat) :
    Polymorphic.copyAssign true a a h = (a, a, h, [])
    ∧ Polymorphic.moveAssign true a a h = (a, a, h, [])
    ∧ Procedural.copyAssign true b b h = (b, b, h, [])
    ∧ Procedural.moveAssign true b b h = (b, b, h, [])
    ∧ (Polymorphic.copyAssign true a a h).1.hasValue = a.hasValue
    ∧ (Polymorphic.copyAssign true a a h).1.type'
        (Polymorphic.copyAssign true a a h).2.2.1 = a.type' h
    ∧ (Polymorphic.copyAssign true a a h).1.anyCast r
        (Polymorphic.copyAssign true a a h).2.2.1 = a.anyCast r h
    ∧ (Procedural.moveAssign true b b h).1.hasValue = b.hasValue
    ∧ (Procedural.moveAssign true b b h).1.type'
        (Procedural.moveAssign true b b h).2.2.1 = b.type' h
    ∧ (Procedural.moveAssign true b b h).1.anyCast r
        (Procedural.moveAssign true b b h).2.2.1 = b.anyCast r h :=
  ⟨rfl, rfl, rfl, rfl, rfl, rfl, rfl, rfl, rfl, rfl⟩

/-- C6: `c.Swap(d)` exactly exchanges the pairs `(Type(), HasValue())` of
the two containers, leaves the heap of records untouched, and performs no
clone, copy or destroy (empty event trace) — only the two ownership slots
are exchanged.  Holds for both variants, either or both sides possibly
empty. -/
theorem c6_swap_exchanges_slots (c d : Polymorphic.Any) (e f : Procedural.Any)
    (h h2 : Heap) :
    ((Polymorphic.swap c d h).1.type' (Polymorphic.swap c d h).2.2.1 = d.type' h)
    ∧ ((Polymorphic.swap c d h).1.hasValue = d.hasValue)
    ∧ ((Polymorphic.swap c d h).2.1.type' (Polymorphic.swap c d h).2.2.1 = c.type' h)
    ∧ ((Polymorphic.swap c d h).2.1.hasValue = c.hasValue)
    ∧ ((Polymorphic.swap c d h).2.2.1 = h)
    ∧ ((Polymorphic.swap c d h).2.2.2 = [])
    ∧ ((Procedural.swap e f h2).1.type' (Procedural.swap e f h2).2.2.1 = f.type' h2)
    ∧ ((Procedural.swap e f h2).1.hasValue = f.hasValue)
    ∧ ((Procedural.swap e f h2).2.1.type' (Procedural.swap e f h2).2.2.1 = e.type' h2)
    ∧ ((Procedural.swap e f h2).2.1.hasValue = e.hasValue)
    ∧ ((Procedural.swap e f h2).2.2.1 = h2)
    ∧ ((Procedural.swap e f h2).2.2.2 = []) :=
  ⟨rfl, rfl, rfl, rfl, rfl, rfl, rfl, rfl, rfl, rfl, rfl, rfl⟩

/-- C7: `HasValue()` is true exactly when the ownership slot is non-empty;
`Type()` on an empty container returns the `typeid(void)` sentinel; after
`Reset()` the container is empty with the sentinel type; and `Reset()` on
an already-empty container is a complete no-op (state, heap and trace
unchanged).  The first two conjuncts are stated for an arbitrary container
state, so they hold after every operation of the public interface. -/
theorem c7_empty_state_invariant (a : Polymorphic.Any) (b : Procedural.Any)
    (h : Heap) :
    (a.hasValue = true ↔ a.base_ ≠ none)
    ∧ (a.base_ = none → a.type' h = voidToken)
    ∧ ((Polymorphic.reset a h).1.hasValue = false)
    ∧ ((Polymorphic.reset a h).1.type' (Polymorphic.reset a h).2.1 = voidToken)
    ∧ (a.base_ = none → Polymorphic.reset a h = (⟨none⟩, h, []))
    ∧ (b.hasValue = true ↔ b.vtable_ ≠ none)
    ∧ (b.vtable_ = none → b.type' h = voidToken)
    ∧ ((Procedural.reset b h).1.hasValue = false)
    ∧ ((Procedural.reset b h).1.type' (Procedural.reset b h).2.1 = voidToken)
    ∧ (b.vtable_ = none → Procedural.reset b h = (⟨none⟩, h, [])) := by
  refine ⟨?_, ?_, rfl, rfl, ?_, ?_, ?_, rfl, rfl, ?_⟩
  · simp [Polymorphic.Any.hasValue, Option.isSome_iff_ne_none]
  · intro hn
    simp [Polymorphic.Any.type', Polymorphic.Any.hasValue, hn, voidToken]
  · intro hn
    simp [Polymorphic.reset, Polymorphic.destruct, hn]
  · simp [Procedural.Any.hasValue, Option.isSome_iff_ne_none]
  · intro hn
    simp [Procedural.Any.type', Procedural.Any.hasValue, hn, voidToken]
  · intro hn
    simp [Procedural.reset, Procedural.destroyVtable, hn]

/-- Witness for C7 at concrete inputs: a container holding a record at
address 0, and an empty container; the implications are discharged with
`rfl`. -/
theorem c7_empty_state_invariant_witness :
    ((Polymorphic.reset ⟨some 0⟩ ⟨[(0, ⟨1, 5⟩)], 1⟩).1.hasValue = false)
    ∧ ((Polymorphic.Any.mk none).type' ⟨[(0, ⟨1, 5⟩)], 1⟩ = voidToken)
    ∧ (Procedural.reset ⟨none⟩ ⟨[(0, ⟨1, 5⟩)], 1⟩ = (⟨none⟩, ⟨[(0, ⟨1, 5⟩)], 1⟩, [])) :=
  ⟨(c7_empty_state_invariant ⟨some 0⟩ ⟨none⟩ ⟨[(0, ⟨1, 5⟩)], 1⟩).2.2.1,
   (c7_empty_state_invariant ⟨none⟩ ⟨none⟩ ⟨[(0, ⟨1, 5⟩)], 1⟩).2.1 rfl,
   (c7_empty_state_invariant ⟨some 0⟩ ⟨none⟩ ⟨[(0, ⟨1, 5⟩)], 1⟩).2.2.2.2.2.2.2.2.2 rfl⟩

/-- C5: move construction transfers ownership without copying the
underlying value: for a container holding record `v`, after
`Container b(std::move(a))` the source satisfies `a.HasValue() == false`,
`b.Extract<T>() == v`, the heap of records is untouched and no clone /
construction / destruction event occurs.  Both variants. -/
theorem c5_move_transfers_ownership (a : Polymorphic.Any) (b : Procedural.Any)
    (h : Heap) (addr addr2 : Nat) (v w : Record)
    (ha : a.base_ = some addr) (hl : h.lookup addr = some v)
    (hb : b.vtable_ = some addr2) (hl2 : h.lookup addr2 = some w) :
    ((Polymorphic.moveCtor a h).2.1.hasValue = false)
    ∧ ((Polymorphic.moveCtor a h).1.anyCast v.ty (Polymorphic.moveCtor a h).2.2.1
        = .ok v.data)
    ∧ ((Polymorphic.moveCtor a h).2.2.1 = h)
    ∧ ((Polymorphic.moveCtor a h).2.2.2 = [])
    ∧ ((Procedural.moveCtor b h).2.1.hasValue = false)
    ∧ ((Procedural.moveCtor b h).1.anyCast w.ty (Procedural.moveCtor b h).2.2.1
        = .ok w.data)
    ∧ ((Procedural.moveCtor b h).2.2.1 = h)
    ∧ ((Procedural.moveCtor b h).2.2.2 = []) := by
  refine ⟨rfl, ?_, rfl, rfl, rfl, ?_, rfl, rfl⟩
  · simp [Polymorphic.moveCtor, Polymorphic.Any.anyCast, Polymorphic.Any.type',
      Polymorphic.Any.hasValue, ha, Heap.tyAt, Heap.dataAt, hl]
  · simp [Procedural.moveCtor, Procedural.Any.anyCast, Procedural.Any.hasValue,
      hb, Heap.tyAt, Heap.dataAt, hl2]

/-- Witness for C5: both variants move from a container holding the record
`⟨1, 5⟩` at address 0. -/
theorem c5_move_transfers_ownership_witness :
    ((Polymorphic.moveCtor ⟨some 0⟩ ⟨[(0, ⟨1, 5⟩)], 1⟩).2.1.hasValue = false)
    ∧ ((Polymorphic.moveCtor ⟨some 0⟩ ⟨[(0, ⟨1, 5⟩)], 1⟩).1.anyCast 1
        (Polymorphic.moveCtor ⟨some 0⟩ ⟨[(0, ⟨1, 5⟩)], 1⟩).2.2.1 = .ok 5)
    ∧ ((Procedural.moveCtor ⟨some 0⟩ ⟨[(0, ⟨1, 5⟩)], 1⟩).2.1.hasValue = false)
    ∧ ((Procedural.moveCtor ⟨some 0⟩ ⟨[(0, ⟨1, 5⟩)], 1⟩).1.anyCast 1
        (Procedural.moveCtor ⟨some 0⟩ ⟨[(0, ⟨1, 5⟩)], 1⟩).2.2.1 = .ok 5) :=
  ⟨(c5_move_transfers_ownership ⟨some 0⟩ ⟨some 0⟩ ⟨[(0, ⟨1, 5⟩)], 1⟩ 0 0 ⟨1, 5⟩ ⟨1, 5⟩
      rfl rfl rfl rfl).1,
   (c5_move_transfers_ownership ⟨some 0⟩ ⟨some 0⟩ ⟨[(0, ⟨1, 5⟩)], 1⟩ 0 0 ⟨1, 5⟩ ⟨1, 5⟩
      rfl rfl rfl rfl).2.1,
   (c5_move_transfers_ownership ⟨some 0⟩ ⟨some 0⟩ ⟨[(0, ⟨1, 5⟩)], 1⟩ 0 0 ⟨1, 5⟩ ⟨1, 5⟩
      rfl rfl rfl rfl).2.2.2.2.1,
   (c5_move_transfers_ownership ⟨some 0⟩ ⟨some 0⟩ ⟨[(0, ⟨1, 5⟩)], 1⟩ 0 0 ⟨1, 5⟩ ⟨1, 5⟩
      rfl rfl rfl rfl).2.2.2.2.2.1⟩

/-- C2: `AnyCast<T>` throws `BadCast` exactly when the container is empty
or the requested token differs from the held type's token; in every other
case it returns the stored value.  Moreover `Emplace`, the only other
operation that touches `AnyCast` internally, never produces `BadCast`
(its internal cast always succeeds; a failing value constructor propagates
as its own exception, `ctorFail`).  Both variants.  The validity
hypotheses say only that the container's pointer, if any, came from a past
allocation. -/
theorem c2_badcast_iff (a : Polymorphic.Any) (b : Procedural.Any) (h : Heap)
    (reqTy : Nat) (mv mv2 : Option Record)
    (hva : a.validIn h) (hvb : b.validIn h) :
    (a.anyCast reqTy h = .error .badCast ↔ (¬ a.hasValue ∨ reqTy ≠ a.type' h))
    ∧ (a.hasValue = true → reqTy = a.type' h →
        a.anyCast reqTy h = .ok (h.dataAt (a.base_.getD 0)))
    ∧ ((Polymorphic.emplace mv a h).1 ≠ .error .badCast)
    ∧ (b.anyCast reqTy h = .error .badCast ↔ (¬ b.hasValue ∨ reqTy ≠ b.type' h))
    ∧ (b.hasValue = true → reqTy = b.type' h →
        b.anyCast reqTy h = .ok (h.dataAt (b.vtable_.getD 0)))
    ∧ ((Procedural.emplace mv2 b h).1 ≠ .error .badCast) := by
  refine ⟨?_, ?_, ?_, ?_, ?_, ?_⟩
  · cases hab : a.base_ with
    | none => simp [Polymorphic.Any.anyCast, Polymorphic.Any.hasValue, hab]
    | some addr =>
      by_cases hc : reqTy = a.type' h <;>
        simp [Polymorphic.Any.anyCast, Polymorphic.Any.hasValue, hab, hc]
  · intro hv ht
    simp [Polymorphic.Any.anyCast, hv, ht]
  · cases mv with
    | none => simp [Polymorphic.emplace]
    | some v => rw [emplace_ok_poly a h v hva]; simp
  · cases hvt : b.vtable_ with
    | none =>
      simp [Procedural.Any.anyCast, Procedural.Any.hasValue, hvt]
    | some addr =>
      by_cases hc : h.tyAt addr = reqTy
      · simp [Procedural.Any.anyCast, Procedural.Any.type', Procedural.Any.hasValue,
          hvt, hc]
      · simp [Procedural.Any.anyCast, Procedural.Any.type', Procedural.Any.hasValue,
          hvt, hc]
        exact Ne.symm hc
  · intro hv ht
    cases hvt : b.vtable_ with
    | none => simp [Procedural.Any.hasValue, hvt] at hv
    | some addr =>
      rw [ht]
      simp [Procedural.Any.anyCast, Procedural.Any.type', Procedural.Any.hasValue, hvt]
  · cases mv2 with
    | none => simp [Procedural.emplace]
    | some v => rw [emplace_ok_proc b h v hvb]; simp

/-- Witness for C2: a container holding type token 1 at address 0, cast
with the matching and a mismatched token, and an `Emplace` on it. -/
theorem c2_badcast_iff_witness :
    ((Polymorphic.Any.mk (some 0)).anyCast 2 ⟨[(0, ⟨1, 5⟩)], 1⟩ = .error .badCast
      ↔ (¬ (Polymorphic.Any.mk (some 0)).hasValue
          ∨ 2 ≠ (Polymorphic.Any.mk (some 0)).type' ⟨[(0, ⟨1, 5⟩)], 1⟩))
    ∧ ((Polymorphic.emplace (some ⟨2, 20⟩) ⟨some 0⟩ ⟨[(0, ⟨1, 5⟩)], 1⟩).1
        ≠ .error .badCast)
    ∧ ((Procedural.emplace (some ⟨2, 20⟩) ⟨some 0⟩ ⟨[(0, ⟨1, 5⟩)], 1⟩).1
        ≠ .error .badCast) :=
  ⟨(c2_badcast_iff ⟨some 0⟩ ⟨some 0⟩ ⟨[(0, ⟨1, 5⟩)], 1⟩ 2 (some ⟨2, 20⟩) (some ⟨2, 20⟩)
      (fun addr ha => by cases ha; decide) (fun addr ha => by cases ha; decide)).1,
   (c2_badcast_iff ⟨some 0⟩ ⟨some 0⟩ ⟨[(0, ⟨1, 5⟩)], 1⟩ 2 (some ⟨2, 20⟩) (some ⟨2, 20⟩)
      (fun addr ha => by cases ha; decide) (fun addr ha => by cases ha; decide)).2.2.1,
   (c2_badcast_iff ⟨some 0⟩ ⟨some 0⟩ ⟨[(0, ⟨1, 5⟩)], 1⟩ 2 (some ⟨2, 20⟩) (some ⟨2, 20⟩)
      (fun addr ha => by cases ha; decide) (fun addr ha => by cases ha; decide)).2.2.2.2.2⟩

/-- C10: `Emplace` gives the strong guarantee in both variants: the new
record is fully constructed before the old one is released.  If
construction of the new value fails (`none`), the container, the heap and
the trace are exactly as before — in particular the old value has not been
destroyed.  On success the very first trace event is the allocation of the
new record, so no destroy precedes it. -/
theorem c10_emplace_strong_guarantee (a : Polymorphic.Any) (b : Procedural.Any)
    (h : Heap) (v : Record) :
    (Polymorphic.emplace none a h = (.error .ctorFail, a, h, []))
    ∧ (Procedural.emplace none b h = (.error .ctorFail, b, h, []))
    ∧ ((Polymorphic.emplace (some v) a h).2.2.2.head?
        = some (Event.alloc h.next v.ty))
    ∧ ((Procedural.emplace (some v) b h).2.2.2.head?
        = some (Event.alloc h.next v.ty))
    ∧ (∀ dAddr,
        destroyBeforeAlloc (Polymorphic.emplace (some v) a h).2.2.2 dAddr h.next
          = false)
    ∧ (∀ dAddr,
        destroyBeforeAlloc (Procedural.emplace (some v) b h).2.2.2 dAddr h.next
          = false) :=
  ⟨rfl, rfl, rfl, rfl,
   fun dAddr => dba_false_of_alloc_first _ dAddr h.next (allocIdx_emplace_poly a h v),
   fun dAddr => dba_false_of_alloc_first _ dAddr h.next (allocIdx_emplace_proc b h v)⟩

/-- C1 counterexample: the claim says the old record is destroyed *before*
the new one is constructed.  On a container holding `⟨1, 10⟩` at address 0,
`Emplace` of `⟨2, 20⟩` does destroy the old record exactly once, but in
both variants the destruction comes strictly *after* the allocation of the
new record (`destroyBeforeAlloc … = false`, while the claim requires it to
be `true`). -/
theorem c1_destroy_first_counterexample :
    countDestroy
        (Polymorphic.emplace (some ⟨2, 20⟩) ⟨some 0⟩ ⟨[(0, ⟨1, 10⟩)], 1⟩).2.2.2 0 = 1
    ∧ destroyBeforeAlloc
        (Polymorphic.emplace (some ⟨2, 20⟩) ⟨some 0⟩ ⟨[(0, ⟨1, 10⟩)], 1⟩).2.2.2 0 1
        = false
    ∧ countDestroy
        (Procedural.emplace (some ⟨2, 20⟩) ⟨some 0⟩ ⟨[(0, ⟨1, 10⟩)], 1⟩).2.2.2 0 = 1
    ∧ destroyBeforeAlloc
        (Procedural.emplace (some ⟨2, 20⟩) ⟨some 0⟩ ⟨[(0, ⟨1, 10⟩)], 1⟩).2.2.2 0 1
        = false := by
  decide

/-- C1 (amended): for every container holding a prior record,
`Emplace<T>(args...)` constructs the new record first and destroys the old
record afterwards, exactly once; a reference to the freshly stored value is
returned and the container then reports the new type.  (The claim's
destroy-before-construct ordering is reversed; everything else holds.)
Both variants. -/
theorem c1_emplace_replaces_after_construct (a : Polymorphic.Any)
    (b : Procedural.Any) (h : Heap) (addr addr2 : Nat) (old old2 v : Record)
    (ha : a.base_ = some addr) (hl : h.lookup addr = some old) (hlt : addr < h.next)
    (hb : b.vtable_ = some addr2) (hl2 : h.lookup addr2 = some old2)
    (hlt2 : addr2 < h.next) :
    ((Polymorphic.emplace (some v) a h).1 = .ok v.data)
    ∧ ((Polymorphic.emplace (some v) a h).2.2.2
        = [Event.alloc h.next v.ty, Event.destroy addr old.ty])
    ∧ (countDestroy (Polymorphic.emplace (some v) a h).2.2.2 addr = 1)
    ∧ ((Polymorphic.emplace (some v) a h).2.1.type'
        (Polymorphic.emplace (some v) a h).2.2.1 = v.ty)
    ∧ ((Procedural.emplace (some v) b h).1 = .ok v.data)
    ∧ ((Procedural.emplace (some v) b h).2.2.2
        = [Event.alloc h.next v.ty, Event.destroy addr2 old2.ty])
    ∧ (countDestroy (Procedural.emplace (some v) b h).2.2.2 addr2 = 1)
    ∧ ((Procedural.emplace (some v) b h).2.1.type'
        (Procedural.emplace (some v) b h).2.2.1 = v.ty) := by
  have hva : a.validIn h := by
    intro addr' ha'
    rw [ha] at ha'
    cases ha'
    exact hlt
  have hvb : b.validIn h := by
    intro addr' hb'
    rw [hb] at hb'
    cases hb'
    exact hlt2
  have hlp : ((h.alloc v).2).lookup addr = some old := by
    rw [Heap.lookup_alloc_ne _ _ _ (Nat.ne_of_lt hlt)]
    exact hl
  have hlq : ((h.alloc v).2).lookup addr2 = some old2 := by
    rw [Heap.lookup_alloc_ne _ _ _ (Nat.ne_of_lt hlt2)]
    exact hl2
  have htr : (Polymorphic.emplace (some v) a h).2.2.2
      = [Event.alloc h.next v.ty, Event.destroy addr old.ty] := by
    show Event.alloc h.next v.ty :: (Polymorphic.destruct a (h.alloc v).2).2 = _
    simp [Polymorphic.destruct, ha, hlp]
  have htr2 : (Procedural.emplace (some v) b h).2.2.2
      = [Event.alloc h.next v.ty, Event.destroy addr2 old2.ty] := by
    show Event.alloc h.next v.ty
        :: (Procedural.destroyVtable b.vtable_ (h.alloc v).2).2 = _
    simp [Procedural.destroyVtable, hb, hlq]
  have hlk : (Polymorphic.destruct a (h.alloc v).2).1.lookup h.next = some v := by
    rw [destruct_lookup_ne]
    · exact Heap.lookup_alloc_self h v
    · intro addr' ha'
      exact Nat.ne_of_lt (hva addr' ha')
  have hlk2 : (Procedural.destroyVtable b.vtable_ (h.alloc v).2).1.lookup h.next
      = some v := by
    rw [destroyVtable_lookup_ne]
    · exact Heap.lookup_alloc_self h v
    · intro addr' hb'
      exact Nat.ne_of_lt (hvb addr' hb')
  refine ⟨emplace_ok_poly a h v hva, htr, ?_, ?_, emplace_ok_proc b h v hvb, htr2, ?_, ?_⟩
  · rw [htr]
    simp [countDestroy, List.countP_cons]
  · show (Polymorphic.Any.mk (some h.next)).type'
        (Polymorphic.destruct a (h.alloc v).2).1 = v.ty
    simp [Polymorphic.Any.type', Polymorphic.Any.hasValue, Heap.tyAt, hlk]
  · rw [htr2]
    simp [countDestroy, List.countP_cons]
  · show (Procedural.Any.mk (some h.next)).type'
        (Procedural.destroyVtable b.vtable_ (h.alloc v).2).1 = v.ty
    simp [Procedural.Any.type', Procedural.Any.hasValue, Heap.tyAt, hlk2]

/-- Witness for the amended C1: the concrete scenario of the
counterexample (old record `⟨1, 10⟩` at address 0, emplacing `⟨2, 20⟩`). -/
theorem c1_emplace_replaces_after_construct_witness :
    ((Polymorphic.emplace (some ⟨2, 20⟩) ⟨some 0⟩ ⟨[(0, ⟨1, 10⟩)], 1⟩).1 = .ok 20)
    ∧ ((Polymorphic.emplace (some ⟨2, 20⟩) ⟨some 0⟩ ⟨[(0, ⟨1, 10⟩)], 1⟩).2.2.2
        = [Event.alloc 1 2, Event.destroy 0 1])
    ∧ ((Procedural.emplace (some ⟨2, 20⟩) ⟨some 0⟩ ⟨[(0, ⟨1, 10⟩)], 1⟩).1 = .ok 20) :=
  ⟨(c1_emplace_replaces_after_construct ⟨some 0⟩ ⟨some 0⟩ ⟨[(0, ⟨1, 10⟩)], 1⟩ 0 0
      ⟨1, 10⟩ ⟨1, 10⟩ ⟨2, 20⟩ rfl rfl (by decide) rfl rfl (by decide)).1,
   (c1_emplace_replaces_after_construct ⟨some 0⟩ ⟨some 0⟩ ⟨[(0, ⟨1, 10⟩)], 1⟩ 0 0
      ⟨1, 10⟩ ⟨1, 10⟩ ⟨2, 20⟩ rfl rfl (by decide) rfl rfl (by decide)).2.1,
   (c1_emplace_replaces_after_construct ⟨some 0⟩ ⟨some 0⟩ ⟨[(0, ⟨1, 10⟩)], 1⟩ 0 0
      ⟨1, 10⟩ ⟨1, 10⟩ ⟨2, 20⟩ rfl rfl (by decide) rfl rfl (by decide)).2.2.2.2.1⟩

/-- C8: copy construction is fully independent: constructing `a` from `v`
and copy-constructing `b` from `a` gives records at distinct addresses, and
writing `w` through the reference `a.AnyCast<T>()` leaves the value
observed through `b.AnyCast<T>()` unchanged (and vice versa), while the
mutation is indeed visible through `a` itself.  Both variants. -/
theorem c8_copy_independence (v : Record) (h : Heap) (w : Nat) :
    ((Polymorphic.copyCtor (Polymorphic.ctor v h).1 (Polymorphic.ctor v h).2.1).1.base_
      ≠ (Polymorphic.ctor v h).1.base_)
    ∧ ((Polymorphic.copyCtor (Polymorphic.ctor v h).1 (Polymorphic.ctor v h).2.1).1.anyCast
        v.ty
        (Polymorphic.writeVia (Polymorphic.ctor v h).1
          (Polymorphic.copyCtor (Polymorphic.ctor v h).1 (Polymorphic.ctor v h).2.1).2.1 w)
        = .ok v.data)
    ∧ ((Polymorphic.ctor v h).1.anyCast v.ty
        (Polymorphic.writeVia
          (Polymorphic.copyCtor (Polymorphic.ctor v h).1 (Polymorphic.ctor v h).2.1).1
          (Polymorphic.copyCtor (Polymorphic.ctor v h).1 (Polymorphic.ctor v h).2.1).2.1 w)
        = .ok v.data)
    ∧ ((Polymorphic.ctor v h).1.anyCast v.ty
        (Polymorphic.writeVia (Polymorphic.ctor v h).1
          (Polymorphic.copyCtor (Polymorphic.ctor v h).1 (Polymorphic.ctor v h).2.1).2.1 w)
        = .ok w)
    ∧ ((Procedural.copyCtor (Procedural.ctor v h).1 (Procedural.ctor v h).2.1).1.vtable_
      ≠ (Procedural.ctor v h).1.vtable_)
    ∧ ((Procedural.copyCtor (Procedural.ctor v h).1 (Procedural.ctor v h).2.1).1.anyCast
        v.ty
        (Procedural.writeVia (Procedural.ctor v h).1
          (Procedural.copyCtor (Procedural.ctor v h).1 (Procedural.ctor v h).2.1).2.1 w)
        = .ok v.data)
    ∧ ((Procedural.ctor v h).1.anyCast v.ty
        (Procedural.writeVia
          (Procedural.copyCtor (Procedural.ctor v h).1 (Procedural.ctor v h).2.1).1
          (Procedural.copyCtor (Procedural.ctor v h).1 (Procedural.ctor v h).2.1).2.1 w)
        = .ok v.data)
    ∧ ((Procedural.ctor v h).1.anyCast v.ty
        (Procedural.writeVia (Procedural.ctor v h).1
          (Procedural.copyCtor (Procedural.ctor v h).1 (Procedural.ctor v h).2.1).2.1 w)
        = .ok w) := by
  have hl1 : (⟨(h.next, v) :: h.mem, h.next + 1⟩ : Heap).lookup h.next = some v :=
    Heap.lookup_alloc_self h v
  have e1 : Polymorphic.copyCtor ⟨some h.next⟩ (h.alloc v).2
      = (⟨some (h.next + 1)⟩,
         ⟨(h.next + 1, v) :: (h.next, v) :: h.mem, h.next + 1 + 1⟩,
         [Event.cloneCall h.next, Event.alloc (h.next + 1) v.ty]) := by
    simp [Polymorphic.copyCtor, Polymorphic.cloneBase, hl1, Heap.alloc]
  have e2 : Procedural.copyCtor ⟨some h.next⟩ (h.alloc v).2
      = (⟨some (h.next + 1)⟩,
         ⟨(h.next + 1, v) :: (h.next, v) :: h.mem, h.next + 1 + 1⟩,
         [Event.cloneCall h.next, Event.alloc (h.next + 1) v.ty]) := by
    simp [Procedural.copyCtor, Procedural.cloneVtable, hl1, Heap.alloc]
  have hne1 : h.next + 1 ≠ h.next := Nat.succ_ne_self h.next
  have hne2 : h.next ≠ h.next + 1 := Nat.ne_of_lt (Nat.lt_succ_self h.next)
  have hH2a : (⟨(h.next + 1, v) :: (h.next, v) :: h.mem, h.next + 1 + 1⟩ : Heap).lookup
      (h.next + 1) = some v := by
    simp [Heap.lookup, lookupA]
  have hH2b : (⟨(h.next + 1, v) :: (h.next, v) :: h.mem, h.next + 1 + 1⟩ : Heap).lookup
      h.next = some v := by
    simp [Heap.lookup, lookupA, hne1]
  have w1 : ((⟨(h.next + 1, v) :: (h.next, v) :: h.mem, h.next + 1 + 1⟩ : Heap).write
      h.next w).lookup (h.next + 1) = some v := by
    rw [Heap.lookup_write_ne _ _ _ _ hne1]
    exact hH2a
  have w2 : ((⟨(h.next + 1, v) :: (h.next, v) :: h.mem, h.next + 1 + 1⟩ : Heap).write
      h.next w).lookup h.next = some ⟨v.ty, w⟩ :=
    Heap.lookup_write_self _ _ _ _ hH2b
  have w3 : ((⟨(h.next + 1, v) :: (h.next, v) :: h.mem, h.next + 1 + 1⟩ : Heap).write
      (h.next + 1) w).lookup h.next = some v := by
    rw [Heap.lookup_write_ne _ _ _ _ hne2]
    exact hH2b
  have ecp : Polymorphic.ctor v h
      = (⟨some h.next⟩, (h.alloc v).2, [Event.alloc h.next v.ty]) := rfl
  have ecc : Procedural.ctor v h
      = (⟨some h.next⟩, (h.alloc v).2, [Event.alloc h.next v.ty]) := rfl
  rw [ecp, ecc]
  simp only [e1, e2]
  refine ⟨by simp [hne1], ?_, ?_, ?_, by simp [hne1], ?_, ?_, ?_⟩
  · simp [Polymorphic.writeVia, Polymorphic.Any.anyCast, Polymorphic.Any.type',
      Polymorphic.Any.hasValue, Heap.tyAt, Heap.dataAt, w1]
  · simp [Polymorphic.writeVia, Polymorphic.Any.anyCast, Polymorphic.Any.type',
      Polymorphic.Any.hasValue, Heap.tyAt, Heap.dataAt, w3]
  · simp [Polymorphic.writeVia, Polymorphic.Any.anyCast, Polymorphic.Any.type',
      Polymorphic.Any.hasValue, Heap.tyAt, Heap.dataAt, w2]
  · simp [Procedural.writeVia, Procedural.Any.anyCast, Heap.tyAt, Heap.dataAt, w1]
  · simp [Procedural.writeVia, Procedural.Any.anyCast, Heap.tyAt, Heap.dataAt, w3]
  · simp [Procedural.writeVia, Procedural.Any.anyCast, Heap.tyAt, Heap.dataAt, w2]

/-! ## Equivalence of the two variants (C9)

Every table-variant operation, applied to slot-equal inputs, produces
slot-equal outputs, the same heap, the same events and the same observable
results as the dispatch-variant operation. -/

theorem hasValue_toC (a : Polymorphic.Any) : (toC a).hasValue = a.hasValue := rfl

theorem type_toC (a : Polymorphic.Any) (h : Heap) :
    (toC a).type' h = a.type' h := rfl

theorem anyCast_toC (a : Polymorphic.Any) (r : Nat) (h : Heap) :
    (toC a).anyCast r h = a.anyCast r h := by
  cases hab : a.base_ with
  | none =>
    simp [toC, Procedural.Any.anyCast, Polymorphic.Any.anyCast,
      Polymorphic.Any.hasValue, hab]
  | some addr =>
    by_cases hc : h.tyAt addr = r
    · simp [toC, Procedural.Any.anyCast, Polymorphic.Any.anyCast,
        Polymorphic.Any.type', Polymorphic.Any.hasValue, hab, hc]
    · simp [toC, Procedural.Any.anyCast, Polymorphic.Any.anyCast,
        Polymorphic.Any.type', Polymorphic.Any.hasValue, hab, hc, Ne.symm hc]

theorem ctor_toC (v : Record) (h : Heap) :
    Procedural.ctor v h
      = (toC (Polymorphic.ctor v h).1, (Polymorphic.ctor v h).2) := rfl

theorem copyCtor_toC (a : Polymorphic.Any) (h : Heap) :
    Procedural.copyCtor (toC a) h
      = (toC (Polymorphic.copyCtor a h).1, (Polymorphic.copyCtor a h).2) := by
  cases hab : a.base_ with
  | none =>
    simp [toC, Procedural.copyCtor, Polymorphic.copyCtor,
      Procedural.cloneVtable, Polymorphic.cloneBase, hab]
  | some addr =>
    cases hl : h.lookup addr with
    | none =>
      simp [toC, Procedural.copyCtor, Polymorphic.copyCtor,
        Procedural.cloneVtable, Polymorphic.cloneBase, hab, hl]
    | some r =>
      simp [toC, Procedural.copyCtor, Polymorphic.copyCtor,
        Procedural.cloneVtable, Polymorphic.cloneBase, hab, hl]

theorem moveCtor_toC (a : Polymorphic.Any) (h : Heap) :
    Procedural.moveCtor (toC a) h
      = (toC (Polymorphic.moveCtor a h).1, toC (Polymorphic.moveCtor a h).2.1,
         (Polymorphic.moveCtor a h).2.2) := rfl

theorem destroyVtable_toC (a : Polymorphic.Any) (h : Heap) :
    Procedural.destroyVtable (toC a).vtable_ h = Polymorphic.destruct a h := by
  cases hab : a.base_ with
  | none => simp [toC, Procedural.destroyVtable, Polymorphic.destruct, hab]
  | some addr =>
    cases hl : h.lookup addr with
    | none => simp [toC, Procedural.destroyVtable, Polymorphic.destruct, hab, hl]
    | some r => simp [toC, Procedural.destroyVtable, Polymorphic.destruct, hab, hl]

theorem reset_toC (a : Polymorphic.Any) (h : Heap) :
    Procedural.reset (toC a) h
      = (toC (Polymorphic.reset a h).1, (Polymorphic.reset a h).2) := by
  show (⟨none⟩, (Procedural.destroyVtable (toC a).vtable_ h))
      = (toC (Polymorphic.reset a h).1, (Polymorphic.reset a h).2)
  rw [destroyVtable_toC]
  rfl

theorem swap_toC (a b : Polymorphic.Any) (h : Heap) :
    Procedural.swap (toC a) (toC b) h
      = (toC (Polymorphic.swap a b h).1, toC (Polymorphic.swap a b h).2.1,
         (Polymorphic.swap a b h).2.2) := rfl

theorem emplace_toC (mv : Option Record) (a : Polymorphic.Any) (h : Heap) :
    Procedural.emplace mv (toC a) h
      = ((Polymorphic.emplace mv a h).1, toC (Polymorphic.emplace mv a h).2.1,
         (Polymorphic.emplace mv a h).2.2) := by
  cases mv with
  | none => rfl
  | some v =>
    show ((Procedural.Any.mk (some h.next)).anyCast v.ty
            (Procedural.destroyVtable (toC a).vtable_ (h.alloc v).2).1,
          Procedural.Any.mk (some h.next),
          (Procedural.destroyVtable (toC a).vtable_ (h.alloc v).2).1,
          Event.alloc h.next v.ty
            :: (Procedural.destroyVtable (toC a).vtable_ (h.alloc v).2).2)
        = _
    rw [destroyVtable_toC]
    exact congrArg (fun x => (x, Procedural.Any.mk (some h.next),
        (Polymorphic.destruct a (h.alloc v).2).1,
        Event.alloc h.next v.ty :: (Polymorphic.destruct a (h.alloc v).2).2))
      (anyCast_toC ⟨some h.next⟩ v.ty (Polymorphic.destruct a (h.alloc v).2).1)

theorem copyAssign_toC (same : Bool) (s o : Polymorphic.Any) (h : Heap) :
    Procedural.copyAssign same (toC s) (toC o) h
      = (toC (Polymorphic.copyAssign same s o h).1,
         toC (Polymorphic.copyAssign same s o h).2.1,
         (Polymorphic.copyAssign same s o h).2.2) := by
  cases same with
  | true => rfl
  | false =>
    show (let t := Procedural.copyCtor (toC o) h
          let s' := Procedural.swap (toC s) t.1 t.2.1
          let d := Procedural.destroyVtable s'.2.1.vtable_ s'.2.2.1
          (s'.1, toC o, d.1, t.2.2 ++ s'.2.2.2 ++ d.2))
        = _
    rw [copyCtor_toC]
    show (Procedural.Any.mk (toC (Polymorphic.copyCtor o h).1).vtable_,
          toC o,
          (Procedural.destroyVtable (Procedural.Any.mk (toC s).vtable_).vtable_
            (Polymorphic.copyCtor o h).2.1).1,
          (Polymorphic.copyCtor o h).2.2 ++ []
            ++ (Procedural.destroyVtable (Procedural.Any.mk (toC s).vtable_).vtable_
                  (Polymorphic.copyCtor o h).2.1).2)
        = _
    rw [show (Procedural.Any.mk (toC s).vtable_) = toC s from rfl,
        destroyVtable_toC]
    rfl

theorem moveAssign_toC (same : Bool) (s o : Polymorphic.Any) (h : Heap) :
    Procedural.moveAssign same (toC s) (toC o) h
      = (toC (Polymorphic.moveAssign same s o h).1,
         toC (Polymorphic.moveAssign same s o h).2.1,
         (Polymorphic.moveAssign same s o h).2.2) := by
  cases same with
  | true => rfl
  | false =>
    show (Procedural.Any.mk (toC o).vtable_,
          Procedural.Any.mk (none : Option Nat),
          (Procedural.destroyVtable (Procedural.Any.mk (toC s).vtable_).vtable_ h).1,
          [] ++ []
            ++ (Procedural.destroyVtable (Procedural.Any.mk (toC s).vtable_).vtable_ h).2)
        = _
    rw [show (Procedural.Any.mk (toC s).vtable_) = toC s from rfl,
        destroyVtable_toC]
    rfl

theorem getC_toW (w : Polymorphic.World) (i : Nat) :
    (toW w).getC i = toC (w.getC i) := by
  simp only [toW, Procedural.World.getC, Polymorphic.World.getC,
    List.getD_eq_getElem?_getD, List.getElem?_map]
  cases w.conts[i]? <;> rfl

theorem step_toW (w : Polymorphic.World) (op : Op) :
    Procedural.step (toW w) op = toW (Polymorphic.step w op) := by
  cases op with
  | newDefault =>
    simp [Procedural.step, Polymorphic.step, toW, List.map_append, toC,
      Procedural.Any.mkDefault, Polymorphic.Any.mkDefault]
  | newFrom v =>
    simp [Procedural.step, Polymorphic.step, toW, ctor_toC, List.map_append, toC]
  | newCopy i =>
    simp only [Procedural.step, Polymorphic.step, getC_toW, copyCtor_toC]
    simp [toW, List.map_append]
  | newMove i =>
    simp only [Procedural.step, Polymorphic.step, getC_toW, moveCtor_toC]
    simp [toW, List.map_append, List.map_set]
  | assignCopy i j =>
    simp only [Procedural.step, Polymorphic.step, getC_toW, copyAssign_toC]
    simp [toW, List.map_set]
  | assignMove i j =>
    simp only [Procedural.step, Polymorphic.step, getC_toW, moveAssign_toC]
    simp [toW, List.map_set]
  | doEmplace i mv =>
    simp only [Procedural.step, Polymorphic.step, getC_toW, emplace_toC]
    simp [toW, List.map_set]
  | doReset i =>
    simp only [Procedural.step, Polymorphic.step, getC_toW, reset_toC]
    simp [toW, List.map_set]
  | doSwap i j =>
    simp only [Procedural.step, Polymorphic.step, getC_toW, swap_toC]
    simp [toW, List.map_set]

theorem run_toW (ops : List Op) (w : Polymorphic.World) :
    Procedural.run ops (toW w) = toW (Polymorphic.run ops w) := by
  induction ops generalizing w with
  | nil => rfl
  | cons op ops ih =>
    show Procedural.run ops (Procedural.step (toW w) op)
        = toW (Polymorphic.run ops (Polymorphic.step w op))
    rw [step_toW]
    exact ih _

theorem observe_toW (w : Polymorphic.World) (r : Nat) :
    Procedural.observe (toW w) r = Polymorphic.observe w r := by
  have hfun : ((fun a : Procedural.Any =>
        (a.hasValue, a.type' w.heap, a.anyCast r w.heap)) ∘ toC)
      = (fun a : Polymorphic.Any =>
          (a.hasValue, a.type' w.heap, a.anyCast r w.heap)) := by
    funext a
    simp [Function.comp, hasValue_toC, type_toC, anyCast_toC]
  simp only [Procedural.observe, Polymorphic.observe, toW, List.map_map, hfun]

/-- C9: the dispatch-based variant (`Any::Polymorphic::Any`) and the
table-based variant (`Any::Procedural::Any`) are observably equivalent:
running any sequence of public operations (default/value/copy/move
construction, copy/move assignment, `Emplace`, `Reset`, `Swap`) from the
empty initial state gives, for every container and every requested token,
the same `HasValue()` answer, the same `Type()` token, the same
successfully extracted values, and `BadCast` in exactly the same cases. -/
theorem c9_variants_observably_equivalent (ops : List Op) (reqTy : Nat) :
    Procedural.observe (Procedural.run ops Procedural.World.init) reqTy
      = Polymorphic.observe (Polymorphic.run ops Polymorphic.World.init) reqTy := by
  have hinit : Procedural.World.init = toW Polymorphic.World.init := rfl
  rw [hinit, run_toW, observe_toW]

end AnyModel
